import Mathlib

/-!
Verification of the HeatDiffusion repository (sequential, shared-segment
parallel and distributed Jacobi engines) against its specification.

The Python code is shallowly embedded: a temperature grid is a function
from (row, column) to the cell value.  NumPy float64 cell values are
modelled as rationals; the stencil arithmetic performed by the code
(sums and a division by four, an exact power of two) is carried out
verbatim on those rationals.  Grids, bands, the shared-segment ping-pong
state, and the wire protocol of the distributed engine are translated
from src/sequential.py, src/parallel.py, src/distributed.py and
src/paralelo.py; each definition cites the lines it embeds.
-/

namespace HeatDiffusion

/-- A temperature grid: values indexed by (row, column).  Row indices run
from 0 to height - 1 and column indices from 0 to width - 1; the model
keeps the dimensions as separate parameters. -/
abbrev Grid := Nat → Nat → ℚ

/-- Grid initialisation, sequential.py lines 38-44 (identical in
parallel.py lines 56-62 and distributed.py lines 43-49): fill with
initialTemp, then fix row 0, row height-1, column 0 and column width-1
to boundaryTemp. -/
def initGrid (height width : Nat) (initialTemp boundaryTemp : ℚ) : Grid :=
  fun r c =>
    if r = 0 ∨ r = height - 1 ∨ c = 0 ∨ c = width - 1 then boundaryTemp
    else initialTemp

/-- Interior-cell predicate: the cells selected by the NumPy slice
[1:-1, 1:-1] of a height x width array. -/
abbrev isInterior (height width r c : Nat) : Prop :=
  1 ≤ r ∧ r < height - 1 ∧ 1 ≤ c ∧ c < width - 1

/-- Border-cell predicate: row 0, row height-1, column 0, column width-1. -/
abbrev isBorder (height width r c : Nat) : Prop :=
  r = 0 ∨ r = height - 1 ∨ c = 0 ∨ c = width - 1

/-- The four-neighbour Jacobi average computed by every engine
(sequential.py lines 57-62, parallel.py lines 138-143 and 195-200,
distributed.py lines 244-249): north, south, west and east neighbours of
the read grid summed and divided by 4.0. -/
def jacobiAvg (g : Grid) (r c : Nat) : ℚ :=
  (g (r - 1) c + g (r + 1) c + g r (c - 1) + g r (c + 1)) / 4

/-- State of HeatDiffusionSequential: the pair of grids self.grid and
self.new_grid (sequential.py lines 38-47). -/
structure SeqState where
  grid : Grid
  new_grid : Grid

/-- HeatDiffusionSequential.update (sequential.py lines 49-65): write the
Jacobi averages of self.grid into the interior of self.new_grid, leave
the rest of self.new_grid as it was, then swap the two grids. -/
def seqUpdate (height width : Nat) (s : SeqState) : SeqState :=
  { grid := fun r c =>
      if isInterior height width r c then jacobiAvg s.grid r c else s.new_grid r c,
    new_grid := s.grid }

/-- Maximum of the absolute cell differences over one row (columns
0..width-1), part of np.max(np.abs(grid - old_grid)). -/
def rowMaxAbsDiff (width : Nat) (g g' : Grid) (r : Nat) : ℚ :=
  ((List.range width).map (fun c => |g r c - g' r c|)).foldr max 0

/-- np.max(np.abs(grid - old_grid)) over the whole height x width array
(sequential.py line 83).  The 0 seed is inert because the entries are
absolute values. -/
def maxAbsDiff (height width : Nat) (g g' : Grid) : ℚ :=
  ((List.range height).map (rowMaxAbsDiff width g g')).foldr max 0

/-- The iteration loop of HeatDiffusionSequential.simulate
(sequential.py lines 78-87).  One call per remaining iteration: copy the
old grid, update, compare; done counts completed iterations, so the
early return is done + 1 and exhaustion returns the total. -/
def seqSimulateLoop (height width : Nat) (thr : ℚ) :
    Nat → Nat → SeqState → Nat
  | 0, done, _ => done
  | remaining + 1, done, s =>
    let old_grid := s.grid
    let s' := seqUpdate height width s
    if maxAbsDiff height width s'.grid old_grid < thr then done + 1
    else seqSimulateLoop height width thr remaining (done + 1) s'

/-- HeatDiffusionSequential.simulate (sequential.py lines 67-87),
returning the number of iterations executed. -/
def seqSimulate (height width : Nat) (s : SeqState) (iterations : Nat)
    (thr : ℚ) : Nat :=
  seqSimulateLoop height width thr iterations 0 s

/-- Border invariant: every in-bounds border cell holds boundaryTemp. -/
def bordersFixed (height width : Nat) (bt : ℚ) (g : Grid) : Prop :=
  ∀ r < height, ∀ c < width, isBorder height width r c → g r c = bt

lemma initGrid_uniform (height width : Nat) (T : ℚ) (r c : Nat) :
    initGrid height width T T r c = T := by
  unfold initGrid
  split <;> rfl

lemma initGrid_bordersFixed (height width : Nat) (it bt : ℚ) :
    bordersFixed height width bt (initGrid height width it bt) := by
  intro r _ c _ hb
  unfold initGrid
  exact if_pos hb

lemma foldr_max_zero (l : List ℚ) (h : ∀ x ∈ l, x = 0) :
    l.foldr max 0 = 0 := by
  induction l with
  | nil => rfl
  | cons a t ih =>
    have ha : a = 0 := h a (List.mem_cons_self a t)
    have ht : ∀ x ∈ t, x = 0 := fun x hx => h x (List.mem_cons_of_mem a hx)
    simp [List.foldr_cons, ha, ih ht]

lemma maxAbsDiff_eq_zero (height width : Nat) (g g' : Grid)
    (h : ∀ r < height, ∀ c < width, g r c = g' r c) :
    maxAbsDiff height width g g' = 0 := by
  unfold maxAbsDiff
  apply foldr_max_zero
  intro x hx
  obtain ⟨r, hr, rfl⟩ := List.mem_map.mp hx
  unfold rowMaxAbsDiff
  apply foldr_max_zero
  intro y hy
  obtain ⟨c, hc, rfl⟩ := List.mem_map.mp hy
  simp [h r (List.mem_range.mp hr) c (List.mem_range.mp hc)]

lemma jacobiAvg_const (g : Grid) (T : ℚ) (r c : Nat)
    (h : ∀ r' c', g r' c' = T) : jacobiAvg g r c = T := by
  unfold jacobiAvg
  rw [h, h, h, h]
  ring

/-- C5: with the interior initialised to the boundary temperature the
grid is uniform; one Jacobi step leaves every interior cell unchanged
(every cell, in fact, stays at T), and simulate with a positive
threshold and at least one iteration returns exactly 1. -/
theorem uniform_grid_fixed_point_one_iteration
    (height width iterations : Nat) (T thr : ℚ)
    (hthr : 0 < thr) (hiter : 1 ≤ iterations) :
    (∀ r c, isInterior height width r c →
        (seqUpdate height width
            ⟨initGrid height width T T, initGrid height width T T⟩).grid r c
          = initGrid height width T T r c) ∧
    seqSimulate height width
        ⟨initGrid height width T T, initGrid height width T T⟩ iterations thr
      = 1 := by
  have huni : ∀ r c, initGrid height width T T r c = T :=
    initGrid_uniform height width T
  have hfix : ∀ r c,
      (seqUpdate height width
          ⟨initGrid height width T T, initGrid height width T T⟩).grid r c
        = initGrid height width T T r c := by
    intro r c
    unfold seqUpdate
    simp only
    split
    · rw [jacobiAvg_const _ T r c huni, huni]
    · rfl
  refine ⟨fun r c _ => hfix r c, ?_⟩
  obtain ⟨n, rfl⟩ : ∃ n, iterations = n + 1 :=
    ⟨iterations - 1, by omega⟩
  unfold seqSimulate seqSimulateLoop
  have hdiff : maxAbsDiff height width
      (seqUpdate height width
          ⟨initGrid height width T T, initGrid height width T T⟩).grid
      (initGrid height width T T) = 0 :=
    maxAbsDiff_eq_zero _ _ _ _ (fun r _ c _ => hfix r c)
  simp only [hdiff]
  rw [if_pos hthr]

/-- Witness for C5 at height 4, width 5, T = 100, threshold 1, three
iterations. -/
theorem uniform_grid_fixed_point_one_iteration_witness :
    (∀ r c, isInterior 4 5 r c →
        (seqUpdate 4 5 ⟨initGrid 4 5 100 100, initGrid 4 5 100 100⟩).grid r c
          = initGrid 4 5 100 100 r c) ∧
    seqSimulate 4 5 ⟨initGrid 4 5 100 100, initGrid 4 5 100 100⟩ 3 1 = 1 :=
  uniform_grid_fixed_point_one_iteration 4 5 3 100 1 (by norm_num) (by norm_num)

/-- The band write of HeatDiffusionParallel._update_region_worker
(parallel.py lines 133-143): rows max(1, start_row) to
min(height-1, end_row) exclusive, columns 1 to width-1 exclusive, of the
write grid receive the Jacobi average of the read grid; all other cells
of the write grid keep their previous value.  The guard
actual_start < actual_end of the source is subsumed: no cell satisfies
the row condition when the clamped range is empty. -/
def updateRegionWrite (height width start_row end_row : Nat)
    (read write : Grid) : Grid :=
  fun r c =>
    if max 1 start_row ≤ r ∧ r < min (height - 1) end_row
        ∧ 1 ≤ c ∧ c < width - 1
    then jacobiAvg read r c else write r c

/-- Contents of the named shared-memory segments: none models a name
whose segment does not exist, in which case attaching raises
FileNotFoundError.  Names are modelled as naturals. -/
def SegStore := Nat → Option Grid

/-- HeatDiffusionParallel._update_region_worker in full (parallel.py
lines 105-149): attach the read and the write segment by name; a
FileNotFoundError from either attach is caught and the worker returns
with the store untouched.  Otherwise the band write is performed on the
write segment.  The result is always Except.ok: no failure is ever
propagated to pool.map. -/
def update_region_worker (store : SegStore) (read_name write_name : Nat)
    (height width start_row end_row : Nat) : Except Unit SegStore :=
  match store read_name, store write_name with
  | some grid, some new_grid =>
      Except.ok (fun n =>
        if n = write_name
        then some (updateRegionWrite height width start_row end_row grid new_grid)
        else store n)
  | _, _ => Except.ok store

/-- Re-stamping of the four border lines performed by
HeatDiffusionParallel.update on the read segment (parallel.py lines
215-218) and on the write segment (lines 236-239). -/
def stampBorders (height width : Nat) (bt : ℚ) (g : Grid) : Grid :=
  fun r c => if isBorder height width r c then bt else g r c

/-- pool.map(self._update_region_worker, args_list) (parallel.py lines
220-233): every band job reads the same read segment and writes its own
disjoint rows of the write segment; the jobs are modelled as a fold over
the bands (the bands produced by _calculate_process_ranges are
disjoint, so the order is immaterial). -/
def pool_map_update (height width : Nat) (ranges : List (Nat × Nat))
    (read write : Grid) : Grid :=
  ranges.foldl
    (fun w0 se => updateRegionWrite height width se.1 se.2 read w0) write

/-- State of a HeatDiffusionParallel object during simulate: the local
grids self.grid and self.new_grid, the contents of the two shared
segments, the two name fields read_grid_name / write_grid_name
(read_grid_is_a means the name field holds the name of segment A), and
the two array references self.read_array / self.write_array, which can
go stale because update refreshes them before swapping the names. -/
structure ParState where
  grid : Grid
  new_grid : Grid
  segA : Grid
  segB : Grid
  read_grid_is_a : Bool
  write_grid_is_a : Bool
  read_arr_a : Bool
  write_arr_a : Bool

/-- HeatDiffusionParallel.update (parallel.py lines 189-245).  With one
process, the sequential vectorised stencil on the local grids.
Otherwise: refresh the array references from the name fields, re-stamp
the borders of the read segment, run all band jobs into the write
segment, re-stamp the borders of the write segment, swap the two name
fields.  Both branches end by swapping self.grid and self.new_grid
(line 245). -/
def parUpdate (height width num_processes : Nat) (bt : ℚ)
    (ranges : List (Nat × Nat)) (s : ParState) : ParState :=
  if num_processes = 1 then
    { s with
      grid := fun r c =>
        if isInterior height width r c then jacobiAvg s.grid r c
        else s.new_grid r c,
      new_grid := s.grid }
  else
    let read_arr_a := s.read_grid_is_a
    let write_arr_a := s.write_grid_is_a
    let segA1 := if read_arr_a then stampBorders height width bt s.segA else s.segA
    let segB1 := if read_arr_a then s.segB else stampBorders height width bt s.segB
    let readSeg := if read_arr_a then segA1 else segB1
    let segA2 := if write_arr_a then pool_map_update height width ranges readSeg segA1 else segA1
    let segB2 := if write_arr_a then segB1 else pool_map_update height width ranges readSeg segB1
    let segA3 := if write_arr_a then stampBorders height width bt segA2 else segA2
    let segB3 := if write_arr_a then segB2 else stampBorders height width bt segB2
    { grid := s.new_grid, new_grid := s.grid,
      segA := segA3, segB := segB3,
      read_grid_is_a := s.write_grid_is_a,
      write_grid_is_a := s.read_grid_is_a,
      read_arr_a := read_arr_a, write_arr_a := write_arr_a }

/-- The segment the stale self.read_array reference designates. -/
def readArrSeg (s : ParState) : Grid := if s.read_arr_a then s.segA else s.segB

/-- The segment the stale self.write_array reference designates. -/
def writeArrSeg (s : ParState) : Grid := if s.write_arr_a then s.segA else s.segB

/-- The iteration loop of HeatDiffusionParallel.simulate (parallel.py
lines 265-288).  For more than one process, convergence is examined only
when iteration == 0 or iteration % 10 == 0: old_grid is copied from
self.read_array before the update, and after the update self.grid and
self.new_grid are overwritten from self.read_array and self.write_array
(the references as update last set them, the names having been swapped
afterwards).  For one process the sequential check runs every
iteration. -/
def parSimLoop (height width num_processes : Nat) (bt thr : ℚ)
    (ranges : List (Nat × Nat)) : Nat → Nat → ParState → Nat
  | 0, done, _ => done
  | remaining + 1, done, s =>
    if num_processes > 1 then
      let iteration := done
      let old_grid := readArrSeg s
      let s' := parUpdate height width num_processes bt ranges s
      if iteration = 0 ∨ iteration % 10 = 0 then
        let s'' := { s' with grid := readArrSeg s', new_grid := writeArrSeg s' }
        if maxAbsDiff height width s''.grid old_grid < thr then done + 1
        else parSimLoop height width num_processes bt thr ranges remaining (done + 1) s''
      else
        parSimLoop height width num_processes bt thr ranges remaining (done + 1) s'
    else
      let old_grid := s.grid
      let s' := parUpdate height width num_processes bt ranges s
      if maxAbsDiff height width s'.grid old_grid < thr then done + 1
      else parSimLoop height width num_processes bt thr ranges remaining (done + 1) s'

/-- HeatDiffusionParallel.simulate (parallel.py lines 247-297) starting
from a freshly constructed engine whose grid is g: when more than one
process is used, _init_shared_memory (lines 151-172) seeds both
segments with g, sets read name and read reference to segment A and
write name and write reference to segment B.  Returns the number of
iterations executed. -/
def parSimulate (height width num_processes : Nat) (bt thr : ℚ)
    (ranges : List (Nat × Nat)) (g : Grid) (iterations : Nat) : Nat :=
  parSimLoop height width num_processes bt thr ranges iterations 0
    { grid := g, new_grid := g, segA := g, segB := g,
      read_grid_is_a := true, write_grid_is_a := false,
      read_arr_a := true, write_arr_a := false }

/-- The constructor clause of HeatDiffusionParallel.__init__ (parallel.py
lines 48-53): grids whose smaller dimension is below
min_size_for_parallel force the effective process count to 1. -/
def effNumProcesses (width height num_processes min_size_for_parallel : Nat) : Nat :=
  if min width height < min_size_for_parallel then 1 else num_processes

/-- The guard of simulate (parallel.py lines 260-263) and of
_init_shared_memory (lines 152-154): shared segments and the process
pool are created only when num_processes exceeds 1. -/
def createsSharedResources (num_processes : Nat) : Bool :=
  decide (num_processes > 1)

/-- The row a band loop starts band i at, in closed form: the loop of
_calculate_process_ranges and of run_distributed_server begins at row 1
and band t contributes base + (1 if t < rem else 0) rows, so band i
starts at 1 + i * base + min i rem. -/
def bandStart (base rem i : Nat) : Nat := 1 + i * base + min i rem

/-- The band-assignment loop of run_distributed_server (distributed.py
lines 298-309): worker i receives rows_per_worker plus one remainder
row if i < remainder, rows are contiguous from row 1; k counts the
remaining workers. -/
def workerRangesLoop (base rem : Nat) : Nat → Nat → Nat → List (Nat × Nat)
  | _, _, 0 => []
  | i, start, k + 1 =>
    (start, start + (base + if i < rem then 1 else 0))
      :: workerRangesLoop base rem (i + 1)
          (start + (base + if i < rem then 1 else 0)) k

/-- Band assignment of run_distributed_server (distributed.py lines
294-309): base and remainder from the interior row count height - 2,
then the loop from row 1 over num_workers workers.  No validation of
num_workers is performed and no exception can be raised. -/
def calcWorkerRanges (height num_workers : Nat) : List (Nat × Nat) :=
  workerRangesLoop ((height - 2) / num_workers) ((height - 2) % num_workers)
    0 1 num_workers

/-- The loop of HeatDiffusionParallel._calculate_process_ranges
(parallel.py lines 90-103): as the distributed loop, except that the
final band has its end row clamped to height - 1. -/
def calcRangesLoop (height base rem : Nat) : Nat → Nat → Nat → List (Nat × Nat)
  | _, _, 0 => []
  | i, start, k + 1 =>
    let e := start + (base + if i < rem then 1 else 0)
    let e2 := if k = 0 then min e (height - 1) else e
    (start, e2) :: calcRangesLoop height base rem (i + 1) e2 k

/-- HeatDiffusionParallel._calculate_process_ranges (parallel.py lines
80-103). -/
def calcProcessRanges (height num_processes : Nat) : List (Nat × Nat) :=
  calcRangesLoop height ((height - 2) / num_processes)
    ((height - 2) % num_processes) 0 1 num_processes

/-- The worker-count clamp of the threaded engine
DifusaoCalorParalela.__init__ (paralelo.py lines 13-14):
linhas_uteis = max(1, altura - 2) and
num_threads = max(1, min(num_threads, linhas_uteis)). -/
def num_threads_eff (altura num_threads : Nat) : Nat :=
  max 1 (min num_threads (max 1 (altura - 2)))

/-- A HaloSlice as the distributed worker sees it: its own dimensions
(from slice_grid.shape, distributed.py line 236) and its cells. -/
structure Slice where
  sheight : Nat
  swidth : Nat
  cells : Grid

/-- The compute step of DistributedWorker.process_slice (distributed.py
lines 236-249): copy the received slice, then overwrite its interior
cells with the Jacobi averages of the received slice.  The slice shape
is preserved by the copy. -/
def process_slice_compute (s : Slice) : Slice :=
  { s with cells := fun r c =>
      if isInterior s.sheight s.swidth r c then jacobiAvg s.cells r c
      else s.cells r c }

/-- Reassembly step of HeatDiffusionDistributed._receive_grid_slice
(distributed.py lines 118-133): with send_start = max(0, start_row - 1)
(truncated natural subtraction), rows max(1, start_row) to
min(height-1, end_row) exclusive and columns 1 to width-1 exclusive of
new_grid are taken from the received slice at row offset send_start;
every other cell of new_grid is untouched.  The source guard
slice_actual_start < slice_actual_end is subsumed pointwise. -/
def receive_grid_slice (height width start_row end_row : Nat)
    (new_grid slice_data : Grid) : Grid :=
  fun r c =>
    if max 1 start_row ≤ r ∧ r < min (height - 1) end_row
        ∧ 1 ≤ c ∧ c < width - 1
    then slice_data (r - (start_row - 1)) c
    else new_grid r c

/-- Transport failures of the distributed engine (the ConnectionError
raises of distributed.py lines 105, 114, 222, 231). -/
inductive TransportError where
  | shortRead : TransportError
  | closedDuringReceive : TransportError
deriving DecidableEq

/-- struct.pack of format !I (distributed.py lines 90 and 255): the
4-byte big-endian unsigned encoding of the payload size. -/
def pack_be32 (n : Nat) : List Nat :=
  [n / 2 ^ 24 % 256, n / 2 ^ 16 % 256, n / 2 ^ 8 % 256, n % 256]

/-- struct.unpack of format !I (distributed.py lines 107 and 224). -/
def unpack_be32 (b0 b1 b2 b3 : Nat) : Nat :=
  ((b0 * 256 + b1) * 256 + b2) * 256 + b3

/-- Message framing of _send_grid_slice and process_slice (distributed.py
lines 86-91 and 252-256): the 4-byte big-endian length of the payload
followed by the payload bytes. -/
def sendMessage (payload : List Nat) : List Nat :=
  pack_be32 payload.length ++ payload

/-- The receive loops of _receive_grid_slice and process_slice
(distributed.py lines 102-115 and 219-232): read 4 bytes, failing if
fewer arrive; unpack the big-endian length; then read exactly that many
payload bytes, failing if the stream ends first.  Returns the payload
and the rest of the stream. -/
def recvMessage (stream : List Nat) :
    Except TransportError (List Nat × List Nat) :=
  match stream with
  | b0 :: b1 :: b2 :: b3 :: rest =>
    if rest.length < unpack_be32 b0 b1 b2 b3 then
      Except.error TransportError.closedDuringReceive
    else
      Except.ok (rest.take (unpack_be32 b0 b1 b2 b3),
        rest.drop (unpack_be32 b0 b1 b2 b3))
  | _ => Except.error TransportError.shortRead

/-- Model of pickle.dumps applied to a C-contiguous 2-D float64 NumPy
array (distributed.py lines 86 and 252): the row count, the column
count, then the cells in row-major order.  A cell value is the 64-bit
pattern of the float64, so equality of cells is bit-identity of the
floats; pickle stores those bytes verbatim, which the model mirrors by
keeping every cell word unchanged. -/
def dumps (slice : List (List Nat)) : List Nat :=
  slice.length :: (slice.headD []).length :: slice.flatten

/-- Splits a row-major cell sequence back into rows rows of cols cells,
failing if the data does not fill the shape exactly. -/
def chunkRows : Nat → Nat → List Nat → Option (List (List Nat))
  | 0, _, [] => some []
  | 0, _, _ :: _ => none
  | rows + 1, cols, data =>
    if data.length < cols then none
    else
      match chunkRows rows cols (data.drop cols) with
      | some rest => some (data.take cols :: rest)
      | none => none

/-- Model of pickle.loads (distributed.py lines 118 and 235): recover
the shape and the row-major cells. -/
def loads (payload : List Nat) : Option (List (List Nat)) :=
  match payload with
  | rows :: cols :: data => chunkRows rows cols data
  | _ => none

/-- Whether the master still holds open worker sockets and an open
listening socket. -/
structure SocketState where
  workersOpen : Bool
  listenerOpen : Bool
deriving DecidableEq

/-- The tail of run_distributed_server (distributed.py lines 314-330):
call simulation.simulate, then simulation.close() (which closes every
worker socket, lines 180-187) and server_socket.close().  There is no
try/finally: an exception raised inside simulate propagates at once and
the two close calls are skipped, so the socket state is returned
unchanged on the error path.  sim is the outcome of the simulate call. -/
def run_distributed_server_finish (sim : Except TransportError Nat)
    (s : SocketState) : Except TransportError Nat × SocketState :=
  match sim with
  | Except.ok n => (Except.ok n, { workersOpen := false, listenerOpen := false })
  | Except.error e => (Except.error e, s)

/-- Discriminator for Except outcomes. -/
def exceptIsOk {ε α : Type} : Except ε α → Bool
  | Except.ok _ => true
  | Except.error _ => false

/-- C4: the Jacobi step writes 0.25 times the neighbour sum of the read
grid into every interior cell, and no backend update routine ever
changes a border cell: the sequential update preserves the border
invariant of both grids, the shared-segment band write and the
distributed reassembly leave border cells untouched, the worker slice
compute leaves slice border cells untouched, and the multi-process
update leaves both segment borders holding boundaryTemp. -/
theorem jacobiStep_interior_formula_and_borders_fixed
    (height width : Nat) (bt : ℚ) :
    (∀ (s : SeqState) (r c : Nat), isInterior height width r c →
        (seqUpdate height width s).grid r c
          = (1 / 4) * (s.grid (r - 1) c + s.grid (r + 1) c
              + s.grid r (c - 1) + s.grid r (c + 1))) ∧
    (∀ s : SeqState,
        bordersFixed height width bt s.grid →
        bordersFixed height width bt s.new_grid →
        bordersFixed height width bt (seqUpdate height width s).grid ∧
        bordersFixed height width bt (seqUpdate height width s).new_grid) ∧
    (∀ (start_row end_row : Nat) (read write : Grid) (r c : Nat),
        isBorder height width r c →
        updateRegionWrite height width start_row end_row read write r c
          = write r c) ∧
    (∀ (sl : Slice) (r c : Nat), isBorder sl.sheight sl.swidth r c →
        (process_slice_compute sl).cells r c = sl.cells r c) ∧
    (∀ (start_row end_row : Nat) (new_grid slice_data : Grid) (r c : Nat),
        isBorder height width r c →
        receive_grid_slice height width start_row end_row new_grid slice_data r c
          = new_grid r c) ∧
    (∀ (num_processes : Nat) (ranges : List (Nat × Nat)) (s : ParState),
        num_processes ≠ 1 → s.write_grid_is_a = !s.read_grid_is_a →
        ∀ r c, isBorder height width r c →
          (parUpdate height width num_processes bt ranges s).segA r c = bt ∧
          (parUpdate height width num_processes bt ranges s).segB r c = bt) := by
  refine ⟨?_, ?_, ?_, ?_, ?_, ?_⟩
  · intro s r c h
    show (if isInterior height width r c then jacobiAvg s.grid r c
        else s.new_grid r c) = _
    rw [if_pos h]
    unfold jacobiAvg
    ring
  · intro s hg hn
    refine ⟨?_, hg⟩
    intro r hr c hc hb
    show (if isInterior height width r c then jacobiAvg s.grid r c
        else s.new_grid r c) = bt
    rw [if_neg (by omega : ¬ isInterior height width r c)]
    exact hn r hr c hc hb
  · intro sr er read write r c hb
    show (if _ then _ else write r c) = write r c
    rw [if_neg (by omega)]
  · intro sl r c hb
    show (if isInterior sl.sheight sl.swidth r c then _ else sl.cells r c)
        = sl.cells r c
    rw [if_neg (by omega : ¬ isInterior sl.sheight sl.swidth r c)]
  · intro sr er ng sd r c hb
    show (if _ then _ else ng r c) = ng r c
    rw [if_neg (by omega)]
  · intro np ranges s hnp hw r c hb
    rcases hra : s.read_grid_is_a <;> rw [hra] at hw <;>
      simp [parUpdate, hnp, hra, hw, stampBorders, hb]

/-- Witness for C4 at height 5, width 6, boundaryTemp 100: the interior
cell (2,3) of a freshly initialised grid receives the stencil value, and
the border cell (0,3) of the write grid is untouched by the band
write. -/
theorem jacobiStep_interior_formula_and_borders_fixed_witness :
    (seqUpdate 5 6 ⟨initGrid 5 6 0 100, initGrid 5 6 0 100⟩).grid 2 3
      = (1 / 4) * (initGrid 5 6 0 100 1 3 + initGrid 5 6 0 100 3 3
          + initGrid 5 6 0 100 2 2 + initGrid 5 6 0 100 2 4)
    ∧ updateRegionWrite 5 6 1 4 (initGrid 5 6 0 100) (initGrid 5 6 0 100) 0 3
      = initGrid 5 6 0 100 0 3 :=
  ⟨(jacobiStep_interior_formula_and_borders_fixed 5 6 100).1
      ⟨initGrid 5 6 0 100, initGrid 5 6 0 100⟩ 2 3 (by decide),
   (jacobiStep_interior_formula_and_borders_fixed 5 6 100).2.2.1
      1 4 (initGrid 5 6 0 100) (initGrid 5 6 0 100) 0 3 (by decide)⟩

lemma parUpdate_one (height width : Nat) (bt : ℚ)
    (ranges : List (Nat × Nat)) (s : ParState) :
    parUpdate height width 1 bt ranges s =
      { s with
        grid := (seqUpdate height width ⟨s.grid, s.new_grid⟩).grid,
        new_grid := s.grid } := by
  unfold parUpdate seqUpdate
  rw [if_pos rfl]

lemma parSimLoop_one (height width : Nat) (bt thr : ℚ)
    (ranges : List (Nat × Nat)) :
    ∀ (remaining done : Nat) (s : ParState),
      parSimLoop height width 1 bt thr ranges remaining done s
        = seqSimulateLoop height width thr remaining done ⟨s.grid, s.new_grid⟩ := by
  intro remaining
  induction remaining with
  | zero => intro done s; rfl
  | succ k ih =>
    intro done s
    rw [parSimLoop, seqSimulateLoop]
    rw [if_neg (by omega : ¬ (1:Nat) > 1)]
    simp only [parUpdate_one]
    split
    · rfl
    · exact ih (done + 1) _

/-- C10: a grid whose smaller dimension is below the default
min_size_for_parallel of 800 forces the effective process count to 1;
with one process the update is exactly the sequential update on the
local grids, simulate never creates shared segments or a pool, and the
iteration count returned equals the sequential engine. -/
theorem small_grid_forces_sequential
    (width height num_processes iterations : Nat) (bt thr : ℚ)
    (ranges : List (Nat × Nat)) (g : Grid)
    (hsmall : min width height < 800) :
    effNumProcesses width height num_processes 800 = 1 ∧
    createsSharedResources (effNumProcesses width height num_processes 800)
      = false ∧
    (∀ s : ParState,
        (parUpdate height width 1 bt ranges s).grid
            = (seqUpdate height width ⟨s.grid, s.new_grid⟩).grid ∧
        (parUpdate height width 1 bt ranges s).new_grid
            = (seqUpdate height width ⟨s.grid, s.new_grid⟩).new_grid) ∧
    parSimulate height width 1 bt thr ranges g iterations
      = seqSimulate height width ⟨g, g⟩ iterations thr := by
  have h1 : effNumProcesses width height num_processes 800 = 1 := by
    unfold effNumProcesses
    rw [if_pos hsmall]
  refine ⟨h1, ?_, ?_, ?_⟩
  · rw [h1]; rfl
  · intro s
    rw [parUpdate_one]
    exact ⟨rfl, rfl⟩
  · exact parSimLoop_one height width bt thr ranges iterations 0 _

/-- Witness for C10 at width 500, height 400, eight requested
processes. -/
theorem small_grid_forces_sequential_witness :
    effNumProcesses 500 400 8 800 = 1 ∧
    createsSharedResources (effNumProcesses 500 400 8 800) = false ∧
    (∀ s : ParState,
        (parUpdate 400 500 1 100 [] s).grid
            = (seqUpdate 400 500 ⟨s.grid, s.new_grid⟩).grid ∧
        (parUpdate 400 500 1 100 [] s).new_grid
            = (seqUpdate 400 500 ⟨s.grid, s.new_grid⟩).new_grid) ∧
    parSimulate 400 500 1 100 1 [] (initGrid 400 500 0 100) 7
      = seqSimulate 400 500 ⟨initGrid 400 500 0 100, initGrid 400 500 0 100⟩ 7 1 :=
  small_grid_forces_sequential 500 400 8 7 100 1 [] (initGrid 400 500 0 100)
    (by decide)

/-- A segment store in which only name 1 exists: attaching name 0
raises FileNotFoundError. -/
def segStoreOnlyB : SegStore :=
  fun n => if n = 1 then some (initGrid 4 4 0 100) else none

/-- C6 counterexample: a shared-segment worker job whose read segment
name cannot be attached returns Except.ok with the store unchanged -
the failure is swallowed, the band result is simply missing, and no
error reaches pool.map or simulate. -/
theorem worker_attach_failure_swallowed_cex :
    segStoreOnlyB 0 = none ∧
    exceptIsOk (update_region_worker segStoreOnlyB 0 1 4 4 1 3) = true ∧
    update_region_worker segStoreOnlyB 0 1 4 4 1 3 = Except.ok segStoreOnlyB :=
  ⟨rfl, rfl, rfl⟩

/-- C6 amended: whenever either named segment is missing, the worker
job catches the FileNotFoundError and completes successfully with the
store untouched; the round then finishes without that band having been
computed and no error is surfaced to simulate. -/
theorem worker_attach_failure_silently_ignored
    (store : SegStore) (read_name write_name : Nat)
    (height width start_row end_row : Nat)
    (h : store read_name = none ∨ store write_name = none) :
    update_region_worker store read_name write_name height width
        start_row end_row = Except.ok store := by
  unfold update_region_worker
  rcases hr : store read_name with _ | g <;>
    rcases hw : store write_name with _ | ng <;> simp_all

/-- Witness for C6 amended at the concrete store missing name 0. -/
theorem worker_attach_failure_silently_ignored_witness :
    segStoreOnlyB 0 = none ∧
    update_region_worker segStoreOnlyB 0 1 5 5 1 4 = Except.ok segStoreOnlyB :=
  ⟨rfl, worker_attach_failure_silently_ignored segStoreOnlyB 0 1 5 5 1 4
      (Or.inl rfl)⟩

/-- C7 counterexample: when simulate raises a transport error mid-round,
run_distributed_server propagates it before reaching the close calls,
so both the worker sockets and the listening socket remain open. -/
theorem server_sockets_open_on_error_cex :
    run_distributed_server_finish
        (Except.error TransportError.closedDuringReceive)
        { workersOpen := true, listenerOpen := true }
      = (Except.error TransportError.closedDuringReceive,
         { workersOpen := true, listenerOpen := true }) ∧
    (run_distributed_server_finish
        (Except.error TransportError.closedDuringReceive)
        { workersOpen := true, listenerOpen := true }).2.workersOpen = true ∧
    (run_distributed_server_finish
        (Except.error TransportError.closedDuringReceive)
        { workersOpen := true, listenerOpen := true }).2.listenerOpen = true :=
  ⟨rfl, rfl, rfl⟩

/-- C7 amended: the master closes every worker socket and the listening
socket when simulate returns normally; when simulate raises, the
exception propagates out of run_distributed_server and the socket state
is left exactly as it was. -/
theorem server_socket_cleanup_success_only
    (n : Nat) (e : TransportError) (s : SocketState) :
    run_distributed_server_finish (Except.ok n) s
        = (Except.ok n, { workersOpen := false, listenerOpen := false }) ∧
    run_distributed_server_finish (Except.error e) s
        = (Except.error e, s) :=
  ⟨rfl, rfl⟩

/-- Witness for C7 amended: 7 iterations completed on the success path,
shortRead on the failure path, starting from fully open sockets. -/
theorem server_socket_cleanup_success_only_witness :
    run_distributed_server_finish (Except.ok 7)
        { workersOpen := true, listenerOpen := true }
        = (Except.ok 7, { workersOpen := false, listenerOpen := false }) ∧
    run_distributed_server_finish (Except.error TransportError.shortRead)
        { workersOpen := true, listenerOpen := true }
        = (Except.error TransportError.shortRead,
           { workersOpen := true, listenerOpen := true }) :=
  server_socket_cleanup_success_only 7 TransportError.shortRead
    { workersOpen := true, listenerOpen := true }

lemma unpack_pack_be32 (n : Nat) (h : n < 2 ^ 32) :
    unpack_be32 (n / 2 ^ 24 % 256) (n / 2 ^ 16 % 256) (n / 2 ^ 8 % 256)
      (n % 256) = n := by
  unfold unpack_be32
  omega

lemma recvMessage_sendMessage (payload rest : List Nat)
    (h : payload.length < 2 ^ 32) :
    recvMessage (sendMessage payload ++ rest)
      = Except.ok (payload, rest) := by
  show recvMessage (payload.length / 2 ^ 24 % 256
      :: payload.length / 2 ^ 16 % 256 :: payload.length / 2 ^ 8 % 256
      :: payload.length % 256 :: (payload ++ rest)) = _
  rw [recvMessage]
  rw [unpack_pack_be32 payload.length h]
  rw [if_neg (by simp)]
  rw [List.take_left, List.drop_left]

lemma chunkRows_flatten (cols : Nat) :
    ∀ s : List (List Nat), (∀ row ∈ s, row.length = cols) →
      chunkRows s.length cols s.flatten = some s := by
  intro s
  induction s with
  | nil => intro _; rfl
  | cons row rest ih =>
    intro hall
    have hrow : row.length = cols := hall row (List.mem_cons_self row rest)
    have hrest : ∀ q ∈ rest, q.length = cols :=
      fun q hq => hall q (List.mem_cons_of_mem row hq)
    show chunkRows (rest.length + 1) cols (row ++ rest.flatten) = some (row :: rest)
    rw [chunkRows]
    rw [if_neg (by simp [hrow])]
    rw [List.take_left' hrow, List.drop_left' hrow, ih hrest]

lemma loads_dumps (s : List (List Nat))
    (hrect : ∀ row ∈ s, row.length = (s.headD []).length) :
    loads (dumps s) = some s :=
  chunkRows_flatten (s.headD []).length s hrect

/-- C8: every wire message is the 4-byte big-endian length of the
payload followed by the payload; the payload is the serialised row-major
float64 slice; and receiving the framed message and deserialising it
reproduces exactly the slice that was serialised - the cell words, that
is the float64 bit patterns, are returned verbatim. -/
theorem wire_roundtrip_bit_identical
    (slice : List (List Nat)) (rest : List Nat)
    (hrect : ∀ row ∈ slice, row.length = (slice.headD []).length)
    (hsize : (dumps slice).length < 2 ^ 32) :
    sendMessage (dumps slice)
        = pack_be32 (dumps slice).length ++ dumps slice ∧
    recvMessage (sendMessage (dumps slice) ++ rest)
        = Except.ok (dumps slice, rest) ∧
    loads (dumps slice) = some slice :=
  ⟨rfl, recvMessage_sendMessage (dumps slice) rest hsize,
    loads_dumps slice hrect⟩

/-- Witness for C8 on the 2 x 2 slice of cell words 1, 2, 3, 4 with a
nonempty trailing stream. -/
theorem wire_roundtrip_bit_identical_witness :
    sendMessage (dumps [[1, 2], [3, 4]])
        = pack_be32 (dumps [[1, 2], [3, 4]]).length ++ dumps [[1, 2], [3, 4]] ∧
    recvMessage (sendMessage (dumps [[1, 2], [3, 4]]) ++ [9])
        = Except.ok (dumps [[1, 2], [3, 4]], [9]) ∧
    loads (dumps [[1, 2], [3, 4]]) = some [[1, 2], [3, 4]] :=
  wire_roundtrip_bit_identical [[1, 2], [3, 4]] [9] (by decide) (by decide)

/-- C9: the worker returns a slice of the same shape with exactly the
slice-interior cells replaced by Jacobi averages - the first and last
slice rows (the halos) and the first and last columns are returned
unchanged - and the master writes only the band rows
max(1, start_row) to min(height-1, end_row) and the interior columns
into new_grid; the returned halo rows are ignored: two returned slices
that agree on the slice rows 1 to end_row - start_row + 1 reassemble to
the same grid, whatever their halo rows hold. -/
theorem worker_slice_frame_and_reassembly
    (height width start_row end_row : Nat) (sl : Slice)
    (new_grid sd sd' : Grid)
    (hsr : 1 ≤ start_row)
    (hagree : ∀ p c, 1 ≤ p → p < end_row - (start_row - 1) → sd p c = sd' p c) :
    ((process_slice_compute sl).sheight = sl.sheight ∧
     (process_slice_compute sl).swidth = sl.swidth) ∧
    (∀ r c, isInterior sl.sheight sl.swidth r c →
        (process_slice_compute sl).cells r c = jacobiAvg sl.cells r c) ∧
    (∀ c, (process_slice_compute sl).cells 0 c = sl.cells 0 c ∧
        (process_slice_compute sl).cells (sl.sheight - 1) c
          = sl.cells (sl.sheight - 1) c) ∧
    (∀ r, (process_slice_compute sl).cells r 0 = sl.cells r 0 ∧
        (process_slice_compute sl).cells r (sl.swidth - 1)
          = sl.cells r (sl.swidth - 1)) ∧
    (∀ r c, ¬ (max 1 start_row ≤ r ∧ r < min (height - 1) end_row
          ∧ 1 ≤ c ∧ c < width - 1) →
        receive_grid_slice height width start_row end_row new_grid sd r c
          = new_grid r c) ∧
    receive_grid_slice height width start_row end_row new_grid sd
      = receive_grid_slice height width start_row end_row new_grid sd' := by
  refine ⟨⟨rfl, rfl⟩, ?_, ?_, ?_, ?_, ?_⟩
  · intro r c h
    show (if isInterior sl.sheight sl.swidth r c then _ else _) = _
    rw [if_pos h]
  · intro c
    constructor
    · show (if isInterior sl.sheight sl.swidth 0 c
          then jacobiAvg sl.cells 0 c else sl.cells 0 c) = sl.cells 0 c
      rw [if_neg (by omega : ¬ isInterior sl.sheight sl.swidth 0 c)]
    · show (if isInterior sl.sheight sl.swidth (sl.sheight - 1) c
          then jacobiAvg sl.cells (sl.sheight - 1) c
          else sl.cells (sl.sheight - 1) c) = sl.cells (sl.sheight - 1) c
      rw [if_neg (by omega : ¬ isInterior sl.sheight sl.swidth (sl.sheight - 1) c)]
  · intro r
    constructor
    · show (if isInterior sl.sheight sl.swidth r 0
          then jacobiAvg sl.cells r 0 else sl.cells r 0) = sl.cells r 0
      rw [if_neg (by omega : ¬ isInterior sl.sheight sl.swidth r 0)]
    · show (if isInterior sl.sheight sl.swidth r (sl.swidth - 1)
          then jacobiAvg sl.cells r (sl.swidth - 1)
          else sl.cells r (sl.swidth - 1)) = sl.cells r (sl.swidth - 1)
      rw [if_neg (by omega : ¬ isInterior sl.sheight sl.swidth r (sl.swidth - 1))]
  · intro r c h
    show (if _ then _ else new_grid r c) = new_grid r c
    rw [if_neg h]
  · funext r c
    show (if _ then sd (r - (start_row - 1)) c else new_grid r c)
        = (if _ then sd' (r - (start_row - 1)) c else new_grid r c)
    by_cases h : max 1 start_row ≤ r ∧ r < min (height - 1) end_row
        ∧ 1 ≤ c ∧ c < width - 1
    · rw [if_pos h, if_pos h]
      exact hagree (r - (start_row - 1)) c (by omega) (by omega)
    · rw [if_neg h, if_neg h]

/-- Witness for C9: height 6, width 6, band rows 2 to 4, a 4 x 6 slice,
and two returned slices that differ only in halo row 0. -/
theorem worker_slice_frame_and_reassembly_witness :
    ((process_slice_compute ⟨4, 6, initGrid 4 6 0 100⟩).sheight = 4 ∧
     (process_slice_compute ⟨4, 6, initGrid 4 6 0 100⟩).swidth = 6) ∧
    (∀ r c, isInterior 4 6 r c →
        (process_slice_compute ⟨4, 6, initGrid 4 6 0 100⟩).cells r c
          = jacobiAvg (initGrid 4 6 0 100) r c) ∧
    (∀ c, (process_slice_compute ⟨4, 6, initGrid 4 6 0 100⟩).cells 0 c
          = initGrid 4 6 0 100 0 c ∧
        (process_slice_compute ⟨4, 6, initGrid 4 6 0 100⟩).cells 3 c
          = initGrid 4 6 0 100 3 c) ∧
    (∀ r, (process_slice_compute ⟨4, 6, initGrid 4 6 0 100⟩).cells r 0
          = initGrid 4 6 0 100 r 0 ∧
        (process_slice_compute ⟨4, 6, initGrid 4 6 0 100⟩).cells r 5
          = initGrid 4 6 0 100 r 5) ∧
    (∀ r c, ¬ (max 1 2 ≤ r ∧ r < min 5 4 ∧ 1 ≤ c ∧ c < 5) →
        receive_grid_slice 6 6 2 4 (initGrid 6 6 0 100)
            (fun p q => (p : ℚ) + q) r c = initGrid 6 6 0 100 r c) ∧
    receive_grid_slice 6 6 2 4 (initGrid 6 6 0 100) (fun p q => (p : ℚ) + q)
      = receive_grid_slice 6 6 2 4 (initGrid 6 6 0 100)
          (fun p q => if p = 0 then 77 else (p : ℚ) + q) :=
  worker_slice_frame_and_reassembly 6 6 2 4 ⟨4, 6, initGrid 4 6 0 100⟩
    (initGrid 6 6 0 100) (fun p q => (p : ℚ) + q)
    (fun p q => if p = 0 then 77 else (p : ℚ) + q)
    (by omega)
    (fun p c h1 _ => by
      show (p : ℚ) + c = if p = 0 then 77 else (p : ℚ) + c
      rw [if_neg (by omega : ¬ p = 0)])

/-- Closed form of the band lists: band t, counted from index i, runs
from bandStart base rem t to bandStart base rem (t+1). -/
def bandsFrom (base rem : Nat) : Nat → Nat → List (Nat × Nat)
  | _, 0 => []
  | i, k + 1 =>
    (bandStart base rem i, bandStart base rem (i + 1))
      :: bandsFrom base rem (i + 1) k

lemma bandStart_zero (base rem : Nat) : bandStart base rem 0 = 1 := by
  simp [bandStart]

lemma bandStart_succ (base rem i : Nat) :
    bandStart base rem (i + 1)
      = bandStart base rem i + (base + if i < rem then 1 else 0) := by
  unfold bandStart
  rw [Nat.succ_mul]
  split <;> omega

lemma bandStart_le_succ (base rem i : Nat) :
    bandStart base rem i ≤ bandStart base rem (i + 1) := by
  rw [bandStart_succ]
  omega

lemma bandStart_mono (base rem : Nat) {i j : Nat} (h : i ≤ j) :
    bandStart base rem i ≤ bandStart base rem j := by
  induction h with
  | refl => exact le_refl _
  | step _ ih => exact le_trans ih (bandStart_le_succ _ _ _)

lemma workerRangesLoop_eq_bandsFrom (base rem : Nat) :
    ∀ (k i : Nat),
      workerRangesLoop base rem i (bandStart base rem i) k
        = bandsFrom base rem i k := by
  intro k
  induction k with
  | zero => intro i; rfl
  | succ k ih =>
    intro i
    rw [workerRangesLoop, bandsFrom]
    rw [(bandStart_succ base rem i).symm]
    rw [ih (i + 1)]

lemma calcRangesLoop_eq_bandsFrom (height base rem : Nat) :
    ∀ (k i : Nat), bandStart base rem (i + k) ≤ height - 1 →
      calcRangesLoop height base rem i (bandStart base rem i) k
        = bandsFrom base rem i k := by
  intro k
  induction k with
  | zero => intro i _; rfl
  | succ k ih =>
    intro i hle
    cases k with
    | zero =>
      have h1 : bandStart base rem (i + 1) ≤ height - 1 := hle
      show (bandStart base rem i,
          min (bandStart base rem i + (base + if i < rem then 1 else 0))
            (height - 1)) :: []
        = (bandStart base rem i, bandStart base rem (i + 1)) :: []
      rw [(bandStart_succ base rem i).symm]
      rw [Nat.min_eq_left h1]
    | succ k2 =>
      show (bandStart base rem i,
          bandStart base rem i + (base + if i < rem then 1 else 0))
          :: calcRangesLoop height base rem (i + 1)
              (bandStart base rem i + (base + if i < rem then 1 else 0))
              (k2 + 1)
        = (bandStart base rem i, bandStart base rem (i + 1))
          :: bandsFrom base rem (i + 1) (k2 + 1)
      rw [(bandStart_succ base rem i).symm]
      rw [ih (i + 1) (by
        have h2 : i + 1 + (k2 + 1) = i + (k2 + 1 + 1) := by omega
        rw [h2]
        exact hle)]

lemma bandStart_total (height n : Nat) (hh : 2 ≤ height) (hn : 1 ≤ n) :
    bandStart ((height - 2) / n) ((height - 2) % n) n = height - 1 := by
  have h1 := Nat.div_add_mod (height - 2) n
  have h2 : (height - 2) % n < n := Nat.mod_lt _ (by omega)
  unfold bandStart
  omega

lemma calcWorkerRanges_eq_bandsFrom (height n : Nat) :
    calcWorkerRanges height n
      = bandsFrom ((height - 2) / n) ((height - 2) % n) 0 n := by
  unfold calcWorkerRanges
  rw [show (1:Nat) = bandStart ((height - 2) / n) ((height - 2) % n) 0 from
    (bandStart_zero _ _).symm]
  exact workerRangesLoop_eq_bandsFrom _ _ n 0

lemma calcProcessRanges_eq_bandsFrom (height n : Nat)
    (hh : 2 ≤ height) (hn : 1 ≤ n) :
    calcProcessRanges height n
      = bandsFrom ((height - 2) / n) ((height - 2) % n) 0 n := by
  unfold calcProcessRanges
  rw [show (1:Nat) = bandStart ((height - 2) / n) ((height - 2) % n) 0 from
    (bandStart_zero _ _).symm]
  apply calcRangesLoop_eq_bandsFrom
  rw [Nat.zero_add, bandStart_total height n hh hn]

lemma bandsFrom_length (base rem : Nat) :
    ∀ (k i : Nat), (bandsFrom base rem i k).length = k := by
  intro k
  induction k with
  | zero => intro i; rfl
  | succ k ih => intro i; simp [bandsFrom, ih]

lemma bandsFrom_get (base rem : Nat) :
    ∀ (k i t : Nat) (ht : t < (bandsFrom base rem i k).length),
      (bandsFrom base rem i k).get ⟨t, ht⟩
        = (bandStart base rem (i + t), bandStart base rem (i + t + 1)) := by
  intro k
  induction k with
  | zero =>
    intro i t ht
    rw [bandsFrom_length] at ht
    omega
  | succ k ih =>
    intro i t ht
    cases t with
    | zero =>
      show (bandStart base rem i, bandStart base rem (i + 1)) = _
      simp
    | succ t =>
      show (bandsFrom base rem (i + 1) k).get ⟨t, _⟩ = _
      rw [ih (i + 1) t (by
        rw [bandsFrom_length]
        rw [bandsFrom_length] at ht
        omega)]
      have h1 : i + 1 + t = i + (t + 1) := by omega
      rw [h1]

lemma bandsFrom_mem_iff (base rem : Nat) :
    ∀ (k i r : Nat),
      (∃ b ∈ bandsFrom base rem i k, b.1 ≤ r ∧ r < b.2)
        ↔ (bandStart base rem i ≤ r ∧ r < bandStart base rem (i + k)) := by
  intro k
  induction k with
  | zero =>
    intro i r
    simp [bandsFrom]
  | succ k ih =>
    intro i r
    constructor
    · rintro ⟨b, hb, h1, h2⟩
      have hb2 : b = (bandStart base rem i, bandStart base rem (i + 1))
          ∨ b ∈ bandsFrom base rem (i + 1) k := List.mem_cons.mp hb
      rcases hb2 with rfl | hmem
      · exact ⟨h1, lt_of_lt_of_le h2
          (bandStart_mono base rem (by omega : i + 1 ≤ i + (k + 1)))⟩
      · have h3 := (ih (i + 1) r).mp ⟨b, hmem, h1, h2⟩
        have h4 : i + 1 + k = i + (k + 1) := by omega
        rw [h4] at h3
        exact ⟨le_trans (bandStart_le_succ base rem i) h3.1, h3.2⟩
    · rintro ⟨h1, h2⟩
      by_cases hc : r < bandStart base rem (i + 1)
      · exact ⟨(bandStart base rem i, bandStart base rem (i + 1)),
          List.mem_cons_self _ _, h1, hc⟩
      · push_neg at hc
        have h4 : i + 1 + k = i + (k + 1) := by omega
        obtain ⟨b, hmem, hb1, hb2⟩ := (ih (i + 1) r).mpr ⟨hc, by rw [h4]; exact h2⟩
        exact ⟨b, List.mem_cons_of_mem _ hmem, hb1, hb2⟩

/-- C3: for every height of at least 3 and worker count between 1 and
height - 2, the partitioner output has one band per worker, band t has
exactly (height-2)/n + (1 if t < (height-2) mod n else 0) rows, the
bands are contiguous, nonempty, ordered and non-overlapping, their
union is exactly the interior row range, and the distributed server
computes the very same bands. -/
theorem calcProcessRanges_partition_correct
    (height n : Nat) (hh : 3 ≤ height) (hn1 : 1 ≤ n) (hn2 : n ≤ height - 2) :
    (calcProcessRanges height n).length = n ∧
    (∀ t (h1 : t < (calcProcessRanges height n).length),
        ((calcProcessRanges height n).get ⟨t, h1⟩).2
            - ((calcProcessRanges height n).get ⟨t, h1⟩).1
          = (height - 2) / n + (if t < (height - 2) % n then 1 else 0)) ∧
    (∀ t (h1 : t < (calcProcessRanges height n).length)
        (h2 : t + 1 < (calcProcessRanges height n).length),
        ((calcProcessRanges height n).get ⟨t + 1, h2⟩).1
          = ((calcProcessRanges height n).get ⟨t, h1⟩).2) ∧
    (∀ t (h1 : t < (calcProcessRanges height n).length),
        ((calcProcessRanges height n).get ⟨t, h1⟩).1
          < ((calcProcessRanges height n).get ⟨t, h1⟩).2) ∧
    (∀ t u (h1 : t < (calcProcessRanges height n).length)
        (h2 : u < (calcProcessRanges height n).length), t < u →
        ((calcProcessRanges height n).get ⟨t, h1⟩).2
          ≤ ((calcProcessRanges height n).get ⟨u, h2⟩).1) ∧
    (∀ r, (∃ b ∈ calcProcessRanges height n, b.1 ≤ r ∧ r < b.2)
        ↔ (1 ≤ r ∧ r < height - 1)) ∧
    calcWorkerRanges height n = calcProcessRanges height n := by
  have hb := calcProcessRanges_eq_bandsFrom height n (by omega) hn1
  have hbase : 1 ≤ (height - 2) / n :=
    (Nat.one_le_div_iff (by omega)).mpr hn2
  rw [hb, calcWorkerRanges_eq_bandsFrom]
  refine ⟨bandsFrom_length _ _ n 0, ?_, ?_, ?_, ?_, ?_, rfl⟩
  · intro t h1
    rw [bandsFrom_get]
    simp only [Nat.zero_add]
    rw [bandStart_succ]
    split <;> omega
  · intro t h1 h2
    rw [bandsFrom_get, bandsFrom_get]
    simp only [Nat.zero_add]
  · intro t h1
    rw [bandsFrom_get]
    simp only [Nat.zero_add]
    rw [bandStart_succ]
    split <;> omega
  · intro t u h1 h2 htu
    rw [bandsFrom_get, bandsFrom_get]
    simp only [Nat.zero_add]
    exact bandStart_mono _ _ (by omega : t + 1 ≤ u)
  · intro r
    rw [bandsFrom_mem_iff]
    rw [bandStart_zero]
    simp only [Nat.zero_add]
    rw [bandStart_total height n (by omega) hn1]

/-- Witness for C3 at height 10 and three workers. -/
theorem calcProcessRanges_partition_correct_witness :
    (calcProcessRanges 10 3).length = 3 ∧
    (∀ t (h1 : t < (calcProcessRanges 10 3).length),
        ((calcProcessRanges 10 3).get ⟨t, h1⟩).2
            - ((calcProcessRanges 10 3).get ⟨t, h1⟩).1
          = 8 / 3 + (if t < 8 % 3 then 1 else 0)) ∧
    (∀ t (h1 : t < (calcProcessRanges 10 3).length)
        (h2 : t + 1 < (calcProcessRanges 10 3).length),
        ((calcProcessRanges 10 3).get ⟨t + 1, h2⟩).1
          = ((calcProcessRanges 10 3).get ⟨t, h1⟩).2) ∧
    (∀ t (h1 : t < (calcProcessRanges 10 3).length),
        ((calcProcessRanges 10 3).get ⟨t, h1⟩).1
          < ((calcProcessRanges 10 3).get ⟨t, h1⟩).2) ∧
    (∀ t u (h1 : t < (calcProcessRanges 10 3).length)
        (h2 : u < (calcProcessRanges 10 3).length), t < u →
        ((calcProcessRanges 10 3).get ⟨t, h1⟩).2
          ≤ ((calcProcessRanges 10 3).get ⟨u, h2⟩).1) ∧
    (∀ r, (∃ b ∈ calcProcessRanges 10 3, b.1 ≤ r ∧ r < b.2)
        ↔ (1 ≤ r ∧ r < 9)) ∧
    calcWorkerRanges 10 3 = calcProcessRanges 10 3 :=
  calcProcessRanges_partition_correct 10 3 (by decide) (by decide) (by decide)

set_option maxRecDepth 20000 in
/-- C2 counterexample: at height 802 (large enough that the size gate
keeps the requested count) and 801 requested workers, 801 > 800 =
height - 2, yet the shared-segment engine keeps all 801 processes - the
effective count is not clamped to 800 and the range list has 801
entries - and the distributed server raises nothing: it likewise
assigns 801 bands, the last one empty. -/
theorem no_clamp_counterexample :
    effNumProcesses 802 802 801 800 = 801 ∧
    (calcProcessRanges 802 801).length = 801 ∧
    (calcProcessRanges 802 801).length ≠ 800 ∧
    (calcWorkerRanges 802 801).length = 801 ∧
    (calcWorkerRanges 802 801).getLast? = some (801, 801) := by
  have hp : (calcProcessRanges 802 801).length = 801 := by
    rw [calcProcessRanges_eq_bandsFrom 802 801 (by norm_num) (by norm_num),
      bandsFrom_length]
  refine ⟨by decide, hp, by omega, ?_, ?_⟩
  · rw [calcWorkerRanges_eq_bandsFrom, bandsFrom_length]
  · decide

/-- C2 amended: for workerCount above height - 2, only the threaded
engine clamps its worker count to height - 2; the shared-segment
partitioner and the distributed server both keep all workerCount bands,
handing each worker beyond the first height - 2 an empty band
(height-1, height-1), and no InvalidPartitionError is raised anywhere.
Still no interior row is lost: the union of the bands remains exactly
the interior row range in both engines. -/
theorem oversubscribed_workers_get_empty_bands
    (height n : Nat) (hh : 3 ≤ height) (hn : height - 2 < n) :
    num_threads_eff height n = height - 2 ∧
    (calcProcessRanges height n).length = n ∧
    (calcWorkerRanges height n).length = n ∧
    (∀ t (h1 : t < (calcWorkerRanges height n).length), height - 2 ≤ t →
        (calcWorkerRanges height n).get ⟨t, h1⟩ = (height - 1, height - 1)) ∧
    (∀ r, (∃ b ∈ calcProcessRanges height n, b.1 ≤ r ∧ r < b.2)
        ↔ (1 ≤ r ∧ r < height - 1)) ∧
    (∀ r, (∃ b ∈ calcWorkerRanges height n, b.1 ≤ r ∧ r < b.2)
        ↔ (1 ≤ r ∧ r < height - 1)) := by
  have hn1 : 1 ≤ n := by omega
  have hdiv : (height - 2) / n = 0 := Nat.div_eq_of_lt hn
  have hmod : (height - 2) % n = height - 2 := Nat.mod_eq_of_lt hn
  rw [calcProcessRanges_eq_bandsFrom height n (by omega) hn1,
    calcWorkerRanges_eq_bandsFrom]
  refine ⟨?_, bandsFrom_length _ _ n 0, bandsFrom_length _ _ n 0, ?_, ?_, ?_⟩
  · unfold num_threads_eff
    omega
  · intro t h1 ht
    rw [bandsFrom_get]
    simp only [Nat.zero_add]
    unfold bandStart
    rw [hdiv, hmod, Prod.mk.injEq]
    constructor <;> omega
  · intro r
    rw [bandsFrom_mem_iff, bandStart_zero]
    simp only [Nat.zero_add]
    rw [bandStart_total height n (by omega) hn1]
  · intro r
    rw [bandsFrom_mem_iff, bandStart_zero]
    simp only [Nat.zero_add]
    rw [bandStart_total height n (by omega) hn1]

/-- Witness for C2 amended at height 10 with 12 workers. -/
theorem oversubscribed_workers_get_empty_bands_witness :
    num_threads_eff 10 12 = 8 ∧
    (calcProcessRanges 10 12).length = 12 ∧
    (calcWorkerRanges 10 12).length = 12 ∧
    (∀ t (h1 : t < (calcWorkerRanges 10 12).length), 8 ≤ t →
        (calcWorkerRanges 10 12).get ⟨t, h1⟩ = (9, 9)) ∧
    (∀ r, (∃ b ∈ calcProcessRanges 10 12, b.1 ≤ r ∧ r < b.2)
        ↔ (1 ≤ r ∧ r < 9)) ∧
    (∀ r, (∃ b ∈ calcWorkerRanges 10 12, b.1 ≤ r ∧ r < b.2)
        ↔ (1 ≤ r ∧ r < 9)) :=
  oversubscribed_workers_get_empty_bands 10 12 (by decide) (by decide)

lemma le_foldr_max (x : ℚ) : ∀ l : List ℚ, x ∈ l → x ≤ l.foldr max 0
  | [], hx => absurd hx (List.not_mem_nil x)
  | a :: t, hx => by
    rcases List.mem_cons.mp hx with rfl | h
    · exact le_max_left _ _
    · exact le_trans (le_foldr_max x t h) (le_max_right _ _)

lemma stampBorders_eq_of_bordersFixed (height width : Nat) (bt : ℚ)
    (g : Grid) (hg : bordersFixed height width bt g) :
    ∀ r < height, ∀ c < width, stampBorders height width bt g r c = g r c := by
  intro r hr c hc
  unfold stampBorders
  by_cases h : isBorder height width r c
  · rw [if_pos h, hg r hr c hc h]
  · rw [if_neg h]

lemma parUpdate_init (height width n : Nat) (bt : ℚ)
    (ranges : List (Nat × Nat)) (g : Grid) (hn : n ≠ 1) :
    parUpdate height width n bt ranges
      { grid := g, new_grid := g, segA := g, segB := g,
        read_grid_is_a := true, write_grid_is_a := false,
        read_arr_a := true, write_arr_a := false }
    = { grid := g, new_grid := g,
        segA := stampBorders height width bt g,
        segB := stampBorders height width bt
          (pool_map_update height width ranges
            (stampBorders height width bt g) g),
        read_grid_is_a := false, write_grid_is_a := true,
        read_arr_a := true, write_arr_a := false } := by
  unfold parUpdate
  rw [if_neg hn]
  simp

/-- On any starting grid whose borders already hold boundaryTemp, the
multi-process simulate reports convergence after exactly one iteration
for every positive threshold: the iteration-0 check compares the stale
read segment with its own copy and finds a difference of zero. -/
lemma parSimulate_stale_check_returns_one
    (height width n iterations : Nat) (bt thr : ℚ)
    (ranges : List (Nat × Nat)) (g : Grid)
    (hn : 2 ≤ n) (hthr : 0 < thr) (hiter : 1 ≤ iterations)
    (hg : bordersFixed height width bt g) :
    parSimulate height width n bt thr ranges g iterations = 1 := by
  obtain ⟨m, rfl⟩ : ∃ m, iterations = m + 1 := ⟨iterations - 1, by omega⟩
  unfold parSimulate
  rw [parSimLoop]
  rw [if_pos (by omega : n > 1)]
  simp only [parUpdate_init height width n bt ranges g (by omega : n ≠ 1)]
  rw [if_pos (Or.inl trivial)]
  have hdiff : maxAbsDiff height width
      (readArrSeg
        { grid := g, new_grid := g,
          segA := stampBorders height width bt g,
          segB := stampBorders height width bt
            (pool_map_update height width ranges
              (stampBorders height width bt g) g),
          read_grid_is_a := false, write_grid_is_a := true,
          read_arr_a := true, write_arr_a := false })
      (readArrSeg
        { grid := g, new_grid := g, segA := g, segB := g,
          read_grid_is_a := true, write_grid_is_a := false,
          read_arr_a := true, write_arr_a := false }) = 0 := by
    apply maxAbsDiff_eq_zero
    intro r hr c hc
    show stampBorders height width bt g r c = g r c
    exact stampBorders_eq_of_bordersFixed height width bt g hg r hr c hc
  rw [hdiff]
  rw [if_pos hthr]

/-- C1: the shared-segment convergence check compares the wrong grids.
self.read_array is refreshed inside update before the names are
swapped, so after update it still designates the pre-update segment; at
iteration 0 the check copies old_grid from that segment and then copies
self.grid from the same segment again, computes a maximum difference of
exactly zero, and simulate reports convergence after one iteration.  On
the 5 x 5 grid with boundary 100, interior 0, two processes, threshold
1 and a budget of 50 iterations, simulate returns 1 even though the
true max-absolute-difference between the grid after the first update
and the grid before it is 50, far above the threshold - the check never
compares successive iterations as the specification states. -/
theorem sharedSegment_convergence_check_compares_stale_grid :
    parSimulate 5 5 2 100 1 (calcProcessRanges 5 2)
        (initGrid 5 5 0 100) 50 = 1 ∧
    (1 : ℚ)
      ≤ maxAbsDiff 5 5
          (seqUpdate 5 5 ⟨initGrid 5 5 0 100, initGrid 5 5 0 100⟩).grid
          (initGrid 5 5 0 100) := by
  constructor
  · exact parSimulate_stale_check_returns_one 5 5 2 50 100 1
      (calcProcessRanges 5 2) (initGrid 5 5 0 100)
      (by omega) one_pos (by omega) (initGrid_bordersFixed 5 5 0 100)
  · have hcell : (seqUpdate 5 5
        ⟨initGrid 5 5 0 100, initGrid 5 5 0 100⟩).grid 1 1 = 50 := by
      show (if isInterior 5 5 1 1
          then jacobiAvg (initGrid 5 5 0 100) 1 1
          else initGrid 5 5 0 100 1 1) = 50
      rw [if_pos (by omega : isInterior 5 5 1 1)]
      simp [jacobiAvg, initGrid]
      norm_num
    have hzero : initGrid 5 5 0 100 1 1 = 0 := by
      simp [initGrid]
    have h1 : |(seqUpdate 5 5
        ⟨initGrid 5 5 0 100, initGrid 5 5 0 100⟩).grid 1 1
          - initGrid 5 5 0 100 1 1| = 50 := by
      rw [hcell, hzero]
      norm_num
    have h2 : |(seqUpdate 5 5
        ⟨initGrid 5 5 0 100, initGrid 5 5 0 100⟩).grid 1 1
          - initGrid 5 5 0 100 1 1|
        ≤ rowMaxAbsDiff 5
            (seqUpdate 5 5 ⟨initGrid 5 5 0 100, initGrid 5 5 0 100⟩).grid
            (initGrid 5 5 0 100) 1 :=
      le_foldr_max _ _ (List.mem_map.mpr ⟨1, by simp, rfl⟩)
    have h3 : rowMaxAbsDiff 5
          (seqUpdate 5 5 ⟨initGrid 5 5 0 100, initGrid 5 5 0 100⟩).grid
          (initGrid 5 5 0 100) 1
        ≤ maxAbsDiff 5 5
            (seqUpdate 5 5 ⟨initGrid 5 5 0 100, initGrid 5 5 0 100⟩).grid
            (initGrid 5 5 0 100) :=
      le_foldr_max _ _ (List.mem_map.mpr ⟨1, by simp, rfl⟩)
    linarith

end HeatDiffusion
